import Mathlib

/-!
Verification development for the book-store server (`server.js`).

The embedding models the dynamically-typed JavaScript values that flow
through the business logic (`validateBook`, `createBook`, `updateBook`,
`deleteBook`, the bulk-import route, and the query pipeline
`applyQuery`).  JavaScript numbers are modelled as rationals, `NaN` as a
separate constructor, and plain JSON objects as a record of the seven
whitelisted fields (the only properties the code ever reads).  Stateful
code is explicit state passing: every operation takes the current list
of books and returns the response together with the new list.
-/

/-- A JavaScript/JSON value as it occurs in request bodies and records.
`obj` carries exactly the seven whitelisted fields of `validateBook`
(`id`, `title`, `author`, `year`, `rating`, `tags`, `version`); a field
of `none` models a missing property (`undefined`). -/
inductive JVal where
  | null : JVal
  | str (s : String) : JVal
  | num (q : ℚ) : JVal
  | nan : JVal
  | bool (b : Bool) : JVal
  | arr (xs : List JVal) : JVal
  | obj (id title author year rating tags version : Option JVal) : JVal

/-- JavaScript truthiness. -/
def jsTruthy : JVal → Bool
  | .null => false
  | .str s => s ≠ ""
  | .num q => q ≠ 0
  | .nan => false
  | .bool b => b
  | .arr _ => true
  | .obj _ _ _ _ _ _ _ => true

/-- Truthiness of a possibly-absent value (`undefined` is falsy). -/
def jsTruthyO : Option JVal → Bool
  | some v => jsTruthy v
  | none => false

/-- Decimal printing of a rational, exact for integers (the only case the
claims exercise); non-integral values fall back to a `num/den` rendering
that approximates JavaScript's shortest-decimal printing. -/
def numToString (q : ℚ) : String :=
  if q.den = 1 then toString q.num
  else toString q.num ++ "/" ++ toString q.den

mutual

/-- JavaScript `String(v)` (ToString). -/
def jsToString : JVal → String
  | .null => "null"
  | .str s => s
  | .num q => numToString q
  | .nan => "NaN"
  | .bool b => if b then "true" else "false"
  | .arr xs => joinComma xs
  | .obj _ _ _ _ _ _ _ => "[object Object]"

/-- `Array.prototype.join(',')`: elements stringified, except that a
`null` element is rendered as the empty string. -/
def joinComma : List JVal → String
  | [] => ""
  | [.null] => ""
  | [v] => jsToString v
  | .null :: w :: rest => "," ++ joinComma (w :: rest)
  | v :: w :: rest => jsToString v ++ "," ++ joinComma (w :: rest)

end

/-- The numeric value of a decimal digit character. -/
def digitVal (c : Char) : Option ℕ :=
  if c.isDigit then some (c.toNat - 48) else none

/-- Read a list of decimal digits, failing on any non-digit. -/
def readDigits : List Char → Option (List ℕ)
  | [] => some []
  | c :: cs =>
    match digitVal c, readDigits cs with
    | some d, some ds => some (d :: ds)
    | _, _ => none

/-- Value of a digit list read most-significant first. -/
def digitsToNat (ds : List ℕ) : ℕ :=
  ds.foldl (fun a d => 10 * a + d) 0

/-- Parse an unsigned decimal numeral, optionally with a fractional
part.  Returns `none` for anything else (JavaScript `NaN`). -/
def parseUnsigned (cs : List Char) : Option ℚ :=
  let ip := cs.takeWhile (fun c => c ≠ '.')
  let rest := cs.dropWhile (fun c => c ≠ '.')
  match rest with
  | [] =>
    if ip = [] then none
    else (readDigits ip).map (fun ds => ((digitsToNat ds : ℕ) : ℚ))
  | _ :: frac =>
    if ip = [] ∧ frac = [] then none
    else
      match readDigits ip, readDigits frac with
      | some ids, some fds =>
        some ((digitsToNat ids : ℚ) + (digitsToNat fds : ℚ) / ((10 : ℚ) ^ frac.length))
      | _, _ => none

/-- Strip leading and trailing whitespace from a character list. -/
def trimChars (cs : List Char) : List Char :=
  ((cs.dropWhile Char.isWhitespace).reverse.dropWhile Char.isWhitespace).reverse

/-- `toLowerCase()` on the ASCII fragment the data uses, character by
character. -/
def lowerStr (s : String) : String := String.mk (s.toList.map Char.toLower)

/-- JavaScript `Number(string)` on the decimal fragment: leading and
trailing whitespace ignored, the empty string is `0`, an optional sign,
digits with an optional fractional part; everything else is `NaN`
(`none`). -/
def parseNumber (s : String) : Option ℚ :=
  match trimChars s.toList with
  | [] => some 0
  | '-' :: cs => (parseUnsigned cs).map (fun q => -q)
  | '+' :: cs => parseUnsigned cs
  | cs => parseUnsigned cs

/-- JavaScript `Number(v)`; `none` is `NaN`. -/
def jsToNumber : JVal → Option ℚ
  | .null => some 0
  | .str s => parseNumber s
  | .num q => some q
  | .nan => none
  | .bool b => some (if b then 1 else 0)
  | .arr xs => parseNumber (jsToString (.arr xs))
  | .obj _ _ _ _ _ _ _ => none

/-- Repack a `Number(...)` result as a value. -/
def numToJVal : Option ℚ → JVal
  | some q => .num q
  | none => .nan

/-- JavaScript strict equality `===` on the values we model.  `NaN` is
never equal to anything (itself included); arrays and objects compare by
reference, so two separately-built ones are unequal. -/
def strictEq : JVal → JVal → Bool
  | .null, .null => true
  | .str s, .str t => s = t
  | .num p, .num q => p = q
  | .bool a, .bool b => a = b
  | _, _ => false

/-- JavaScript `x += 1` on each kind of value: numeric addition for
numbers, string concatenation for strings. -/
def jsAdd1 : JVal → JVal
  | .num q => .num (q + 1)
  | .str s => .str (s ++ "1")
  | .nan => .nan
  | .null => .num 1
  | .bool b => .num ((if b then 1 else 0) + 1)
  | .arr xs => .str (jsToString (.arr xs) ++ "1")
  | .obj i t a y r tg v => .str (jsToString (.obj i t a y r tg v) ++ "1")

mutual

/-- Decidable equality of values, by structural recursion. -/
def decEqV : (a b : JVal) → Decidable (a = b)
  | .null, .null => isTrue rfl
  | .nan, .nan => isTrue rfl
  | .str s1, .str s2 =>
    if h : s1 = s2 then isTrue (by rw [h])
    else isFalse (fun hh => by cases hh; exact h rfl)
  | .num p1, .num p2 =>
    if h : p1 = p2 then isTrue (by rw [h])
    else isFalse (fun hh => by cases hh; exact h rfl)
  | .bool x1, .bool x2 =>
    if h : x1 = x2 then isTrue (by rw [h])
    else isFalse (fun hh => by cases hh; exact h rfl)
  | .arr xs, .arr ys =>
    match decEqL xs ys with
    | isTrue h => isTrue (by rw [h])
    | isFalse h => isFalse (fun hh => by cases hh; exact h rfl)
  | .obj a1 a2 a3 a4 a5 a6 a7, .obj b1 b2 b3 b4 b5 b6 b7 =>
    match decEqO a1 b1 with
    | isFalse h => isFalse (fun hh => by cases hh; exact h rfl)
    | isTrue h1 =>
      match decEqO a2 b2 with
      | isFalse h => isFalse (fun hh => by cases hh; exact h rfl)
      | isTrue h2 =>
        match decEqO a3 b3 with
        | isFalse h => isFalse (fun hh => by cases hh; exact h rfl)
        | isTrue h3 =>
          match decEqO a4 b4 with
          | isFalse h => isFalse (fun hh => by cases hh; exact h rfl)
          | isTrue h4 =>
            match decEqO a5 b5 with
            | isFalse h => isFalse (fun hh => by cases hh; exact h rfl)
            | isTrue h5 =>
              match decEqO a6 b6 with
              | isFalse h => isFalse (fun hh => by cases hh; exact h rfl)
              | isTrue h6 =>
                match decEqO a7 b7 with
                | isFalse h => isFalse (fun hh => by cases hh; exact h rfl)
                | isTrue h7 =>
                  isTrue (by rw [h1, h2, h3, h4, h5, h6, h7])
  | .null, .str _ => isFalse (fun h => JVal.noConfusion h)
  | .null, .num _ => isFalse (fun h => JVal.noConfusion h)
  | .null, .nan => isFalse (fun h => JVal.noConfusion h)
  | .null, .bool _ => isFalse (fun h => JVal.noConfusion h)
  | .null, .arr _ => isFalse (fun h => JVal.noConfusion h)
  | .null, .obj _ _ _ _ _ _ _ => isFalse (fun h => JVal.noConfusion h)
  | .str _, .null => isFalse (fun h => JVal.noConfusion h)
  | .str _, .num _ => isFalse (fun h => JVal.noConfusion h)
  | .str _, .nan => isFalse (fun h => JVal.noConfusion h)
  | .str _, .bool _ => isFalse (fun h => JVal.noConfusion h)
  | .str _, .arr _ => isFalse (fun h => JVal.noConfusion h)
  | .str _, .obj _ _ _ _ _ _ _ => isFalse (fun h => JVal.noConfusion h)
  | .num _, .null => isFalse (fun h => JVal.noConfusion h)
  | .num _, .str _ => isFalse (fun h => JVal.noConfusion h)
  | .num _, .nan => isFalse (fun h => JVal.noConfusion h)
  | .num _, .bool _ => isFalse (fun h => JVal.noConfusion h)
  | .num _, .arr _ => isFalse (fun h => JVal.noConfusion h)
  | .num _, .obj _ _ _ _ _ _ _ => isFalse (fun h => JVal.noConfusion h)
  | .nan, .null => isFalse (fun h => JVal.noConfusion h)
  | .nan, .str _ => isFalse (fun h => JVal.noConfusion h)
  | .nan, .num _ => isFalse (fun h => JVal.noConfusion h)
  | .nan, .bool _ => isFalse (fun h => JVal.noConfusion h)
  | .nan, .arr _ => isFalse (fun h => JVal.noConfusion h)
  | .nan, .obj _ _ _ _ _ _ _ => isFalse (fun h => JVal.noConfusion h)
  | .bool _, .null => isFalse (fun h => JVal.noConfusion h)
  | .bool _, .str _ => isFalse (fun h => JVal.noConfusion h)
  | .bool _, .num _ => isFalse (fun h => JVal.noConfusion h)
  | .bool _, .nan => isFalse (fun h => JVal.noConfusion h)
  | .bool _, .arr _ => isFalse (fun h => JVal.noConfusion h)
  | .bool _, .obj _ _ _ _ _ _ _ => isFalse (fun h => JVal.noConfusion h)
  | .arr _, .null => isFalse (fun h => JVal.noConfusion h)
  | .arr _, .str _ => isFalse (fun h => JVal.noConfusion h)
  | .arr _, .num _ => isFalse (fun h => JVal.noConfusion h)
  | .arr _, .nan => isFalse (fun h => JVal.noConfusion h)
  | .arr _, .bool _ => isFalse (fun h => JVal.noConfusion h)
  | .arr _, .obj _ _ _ _ _ _ _ => isFalse (fun h => JVal.noConfusion h)
  | .obj _ _ _ _ _ _ _, .null => isFalse (fun h => JVal.noConfusion h)
  | .obj _ _ _ _ _ _ _, .str _ => isFalse (fun h => JVal.noConfusion h)
  | .obj _ _ _ _ _ _ _, .num _ => isFalse (fun h => JVal.noConfusion h)
  | .obj _ _ _ _ _ _ _, .nan => isFalse (fun h => JVal.noConfusion h)
  | .obj _ _ _ _ _ _ _, .bool _ => isFalse (fun h => JVal.noConfusion h)
  | .obj _ _ _ _ _ _ _, .arr _ => isFalse (fun h => JVal.noConfusion h)

/-- Decidable equality of value lists. -/
def decEqL : (xs ys : List JVal) → Decidable (xs = ys)
  | [], [] => isTrue rfl
  | [], _ :: _ => isFalse (fun h => List.noConfusion h)
  | _ :: _, [] => isFalse (fun h => List.noConfusion h)
  | x :: xs, y :: ys =>
    match decEqV x y with
    | isFalse h => isFalse (fun hh => by cases hh; exact h rfl)
    | isTrue h1 =>
      match decEqL xs ys with
      | isFalse h => isFalse (fun hh => by cases hh; exact h rfl)
      | isTrue h2 => isTrue (by rw [h1, h2])

/-- Decidable equality of optional values. -/
def decEqO : (x y : Option JVal) → Decidable (x = y)
  | none, none => isTrue rfl
  | none, some _ => isFalse (fun h => Option.noConfusion h)
  | some _, none => isFalse (fun h => Option.noConfusion h)
  | some v, some w =>
    match decEqV v w with
    | isTrue h => isTrue (by rw [h])
    | isFalse h => isFalse (fun hh => by cases hh; exact h rfl)

end

instance : DecidableEq JVal := decEqV

/-! ## Records and state -/

/-- A stored book record.  `id`, `title`, `author`, `year`, `rating`,
`tags` and `version` hold whatever JavaScript value the code put there
(the update path can write arbitrary patch values into them);
`createdAt`/`updatedAt` are timestamp strings written only by the
store. -/
structure Book where
  id : JVal
  title : JVal
  author : JVal
  year : JVal
  rating : JVal
  tags : JVal
  createdAt : String
  updatedAt : String
  version : JVal

/-- The normalized output object `out` of `validateBook`: the seven
whitelisted fields, each present or absent. -/
structure VOut where
  id : Option JVal
  title : Option JVal
  author : Option JVal
  year : Option JVal
  rating : Option JVal
  tags : Option JVal
  version : Option JVal

/-- Errors thrown by the business logic: a typed API failure
(`throw { code, payload }` in the source) or a JavaScript `TypeError`
(using the `in` operator on a primitive). -/
inductive ApiErr where
  | validation (problems : List String)
  | conflict
  | notFound
  | versionConflict (expected : JVal)

/-- Anything the business logic can throw. -/
inductive Throw where
  | api (e : ApiErr)
  | typeError

/-- The whitelist projection step of `validateBook`: `for (const k of
fields) if (k in input) out[k] = input[k]`.  The `in` operator throws a
`TypeError` on primitives; on an array none of the seven keys is
present. -/
def projectFields : JVal → Option VOut
  | .obj i t a y r tg v => some ⟨i, t, a, y, r, tg, v⟩
  | .arr _ => some ⟨none, none, none, none, none, none, none⟩
  | _ => none

/-- Is this value literally `null`? -/
def isNull : JVal → Bool
  | .null => true
  | _ => false

/-- Is a rational an integer (for `Number.isInteger`)? -/
def isIntQ : Option ℚ → Bool
  | some q => q.den = 1
  | none => false

/-- JavaScript `Math.round(q)`: round half toward positive infinity. -/
def jsRound (q : ℚ) : ℤ := Int.floor (q + 1/2)

/-- `validateBook(input, {partial})` from the source: whitelist
projection, a title check in full mode only, and normalization of
`year`, `rating` and `tags` when they are present and non-null.
Returns `(ok, value, problems)`; `none` models the `TypeError` the
source raises when `input` is a primitive. -/
def validateBook (input : JVal) (part : Bool) : Option (Bool × VOut × List String) :=
  match projectFields input with
  | none => none
  | some out0 =>
    let titleProblems :=
      if part then []
      else
        match out0.title with
        | some (.str s) => if s ≠ "" then [] else ["title is required (string)"]
        | some _ => ["title is required (string)"]
        | none => ["title is required (string)"]
    let yearStep : Option JVal × List String :=
      match out0.year with
      | some v =>
        if isNull v then (some v, [])
        else
          match jsToNumber v with
          | some n =>
            if n.den = 1 ∧ 0 ≤ n ∧ n ≤ 3000 then (some (.num n), [])
            else (some v, ["year must be integer 0..3000"])
          | none => (some v, ["year must be integer 0..3000"])
      | none => (none, [])
    let ratingStep : Option JVal × List String :=
      match out0.rating with
      | some v =>
        if isNull v then (some v, [])
        else
          match jsToNumber v with
          | some n =>
            if 0 ≤ n ∧ n ≤ 5 then (some (.num ((jsRound (n * 10) : ℚ) / 10)), [])
            else (some v, ["rating must be 0..5"])
          | none => (some v, ["rating must be 0..5"])
      | none => (none, [])
    let tagsStep : Option JVal × List String :=
      match out0.tags with
      | some v =>
        if isNull v then (some v, [])
        else
          match v with
          | .arr xs => (some (.arr ((xs.map (fun t => JVal.str (jsToString t))).take 20)), [])
          | _ => (some v, ["tags must be an array of strings"])
      | none => (none, [])
    let problems := titleProblems ++ yearStep.2 ++ ratingStep.2 ++ tagsStep.2
    let value : VOut :=
      { id := out0.id, title := out0.title, author := out0.author,
        year := yearStep.1, rating := ratingStep.1, tags := tagsStep.1,
        version := out0.version }
    some (problems = [], value, problems)

/-- `findBook(id)`: first record whose `id` is strictly equal to the
given value. -/
def findBook (st : List Book) (idv : JVal) : Option Book :=
  st.find? (fun b => strictEq b.id idv)

/-- `createBook(input)`.  The generated id (`'b' + randomBytes`) and
the current timestamp are passed in explicitly.  Returns the thrown
error or the created record, together with the resulting collection. -/
def createBook (st : List Book) (genId now : String) (input : JVal) :
    Except Throw Book × List Book :=
  match validateBook input false with
  | none => (.error .typeError, st)
  | some (ok, value, problems) =>
    if ¬ ok then (.error (.api (.validation problems)), st)
    else if jsTruthyO value.id ∧ (findBook st (value.id.getD .null)).isSome then
      (.error (.api .conflict), st)
    else
      let theId : JVal := if jsTruthyO value.id then value.id.getD .null else .str genId
      let book : Book :=
        { id := theId,
          title := value.title.getD .null,
          author := if jsTruthyO value.author then value.author.getD .null else .str "Unknown",
          year := value.year.getD .null,
          rating := value.rating.getD .null,
          tags := if jsTruthyO value.tags then value.tags.getD .null else .arr [],
          createdAt := now, updatedAt := now, version := .num 1 }
      (.ok book, st ++ [book])

/-- Reading `patch.version`: property access on an object or a
primitive yields the field or `undefined`; on `null` it throws. -/
def versionProp : JVal → Option (Option JVal)
  | .null => none
  | .obj _ _ _ _ _ _ v => some v
  | _ => some none

/-- `Object.assign(b, value)` restricted to the seven whitelisted
fields: every field present in `value` overwrites the record's. -/
def applyVOut (b : Book) (v : VOut) : Book :=
  { id := v.id.getD b.id,
    title := v.title.getD b.title,
    author := v.author.getD b.author,
    year := v.year.getD b.year,
    rating := v.rating.getD b.rating,
    tags := v.tags.getD b.tags,
    createdAt := b.createdAt, updatedAt := b.updatedAt,
    version := v.version.getD b.version }

/-- Replace the first record satisfying the predicate (in-place
mutation of the object `find` returned). -/
def replaceFirst (p : Book → Bool) (nb : Book) : List Book → List Book
  | [] => []
  | x :: xs => if p x then nb :: xs else x :: replaceFirst p nb xs

/-- `updateBook(id, patch)` from the source: 404 lookup, the optimistic
concurrency check `patch.version != null && Number(patch.version) !==
b.version`, partial validation, `Object.assign`, then `updatedAt`
refresh and `version += 1`. -/
def updateBook (st : List Book) (idStr : String) (patch : JVal) (now : String) :
    Except Throw Book × List Book :=
  match findBook st (.str idStr) with
  | none => (.error (.api .notFound), st)
  | some b =>
    match versionProp patch with
    | none => (.error .typeError, st)
    | some pv =>
      let conflictB :=
        match pv with
        | none => false
        | some v => if isNull v then false else ! strictEq (numToJVal (jsToNumber v)) b.version
      if conflictB then (.error (.api (.versionConflict b.version)), st)
      else
        match validateBook patch true with
        | none => (.error .typeError, st)
        | some (ok, value, problems) =>
          if ¬ ok then (.error (.api (.validation problems)), st)
          else
            let b1 := applyVOut b value
            let b2 : Book := { b1 with updatedAt := now, version := jsAdd1 b1.version }
            (.ok b2, replaceFirst (fun x => strictEq x.id (.str idStr)) b2 st)

/-- Remove the first record satisfying the predicate, returning it and
the remaining list (`findIndex` + `splice(i, 1)`). -/
def removeFirst (p : Book → Bool) : List Book → Option (Book × List Book)
  | [] => none
  | x :: xs =>
    if p x then some (x, xs)
    else (removeFirst p xs).map (fun r => (r.1, x :: r.2))

/-- `deleteBook(id)` from the source. -/
def deleteBook (st : List Book) (idStr : String) : Except Throw Book × List Book :=
  match removeFirst (fun b => strictEq b.id (.str idStr)) st with
  | none => (.error (.api .notFound), st)
  | some (removed, st') => (.ok removed, st')

/-! ## Bulk import (`POST /api/books/bulk`) -/

/-- One element of the bulk response: a created record, or the
per-item `{ error, input }` entry built in the route's `catch`. -/
inductive BulkEntry where
  | created (b : Book)
  | failed (e : Throw) (input : JVal)

/-- The bulk route's response: the 400 sent when `items` is not an
array, or the 200 payload `ok(added, { mode })`. -/
inductive BulkResp where
  | badRequest (code msg : String)
  | okAdded (entries : List BulkEntry) (mode : JVal)

/-- The `for (const raw of items)` loop: each item goes through
`createBook` against the evolving collection; a thrown error becomes a
`failed` entry and the loop continues.  `gen i` is the id that would be
generated for the `i`-th item. -/
def bulkProcess (st : List Book) (items : List JVal) (gen : ℕ → String) (i0 : ℕ)
    (now : String) : List BulkEntry × List Book :=
  match items with
  | [] => ([], st)
  | raw :: rest =>
    let step := createBook st (gen i0) now raw
    let entry : BulkEntry :=
      match step.1 with
      | .ok b => .created b
      | .error e => .failed e raw
    let next := bulkProcess step.2 rest gen (i0 + 1) now
    (entry :: next.1, next.2)

/-- The `/api/books/bulk` route body: destructuring defaults
(`items = []`, `mode = 'append'`), the array check, the
`mode === 'replace'` clearing, then the per-item loop. -/
def bulkRoute (st : List Book) (items : Option JVal) (mode : Option JVal)
    (gen : ℕ → String) (now : String) : BulkResp × List Book :=
  let itemsV := items.getD (.arr [])
  let modeV := mode.getD (.str "append")
  match itemsV with
  | .arr xs =>
    let st0 := if strictEq modeV (.str "replace") then [] else st
    let done := bulkProcess st0 xs gen 0 now
    (.okAdded done.1 modeV, done.2)
  | _ => (.badRequest "VALIDATION" "items must be an array", st)

/-! ## Query engine (`applyQuery`) -/

/-- A JavaScript number that may be `NaN` (`none`). -/
abbrev NumV := Option ℚ

/-- `Math.max(v, c)`; `NaN` is absorbing. -/
def jsMaxN (v : NumV) (c : ℚ) : NumV :=
  match v with
  | none => none
  | some q => some (if q < c then c else q)

/-- `Math.min(v, c)`; `NaN` is absorbing. -/
def jsMinN (v : NumV) (c : ℚ) : NumV :=
  match v with
  | none => none
  | some q => some (if c < q then c else q)

/-- Addition of possibly-`NaN` numbers. -/
def addN (a b : NumV) : NumV :=
  match a, b with
  | some x, some y => some (x + y)
  | _, _ => none

/-- The raw query parameters, each as the string
`url.searchParams.get(...)` returns (or absent). -/
structure QueryParams where
  q : Option String
  sort : Option String
  dir : Option String
  limit : Option String
  offset : Option String

/-- `(url.searchParams.get('q') || '').toLowerCase()`. -/
def qEffOf (p : QueryParams) : String := lowerStr (p.q.getD "")

/-- The sort key: `url.searchParams.get('sort') || 'title'`, then the
whitelist fallback to `'title'`. -/
def sortKeyOf (p : QueryParams) : String :=
  let s0 := match p.sort with
    | none => "title"
    | some "" => "title"
    | some s => s
  if s0 ∈ ["id", "title", "author", "year", "rating", "createdAt", "updatedAt"] then s0
  else "title"

/-- The sort direction as `±1`:
`(get('dir') || 'asc').toLowerCase() === 'desc' ? -1 : 1`. -/
def dirOf (p : QueryParams) : Int :=
  let s0 := match p.dir with
    | none => "asc"
    | some "" => "asc"
    | some s => s
  if lowerStr s0 = "desc" then -1 else 1

/-- `Number(raw || d)`: the default kicks in when the parameter is
absent (`null`) or the empty string. -/
def rawNum (raw : Option String) (d : ℚ) : NumV :=
  match raw with
  | none => some d
  | some "" => some d
  | some s => parseNumber s

/-- Effective limit:
`Math.min(Math.max(Number(get('limit') || 20), 1), 100)`. -/
def effLimit (raw : Option String) : NumV :=
  jsMinN (jsMaxN (rawNum raw 20) 1) 100

/-- Effective offset: `Math.max(Number(get('offset') || 0), 0)`. -/
def effOffset (raw : Option String) : NumV :=
  jsMaxN (rawNum raw 0) 0

/-- Is `n` a (list) prefix of `h`? -/
def leadsB : List Char → List Char → Bool
  | [], _ => true
  | _ :: _, [] => false
  | c :: cs, d :: ds => c = d && leadsB cs ds

/-- Does `h` contain `n` as a contiguous run? -/
def hasSubB (n : List Char) : List Char → Bool
  | [] => leadsB n []
  | c :: t => leadsB n (c :: t) || hasSubB n t

/-- JavaScript `s.includes(q)`. -/
def includesB (s q : String) : Bool := hasSubB q.toList s.toList

/-- `(v || '').toLowerCase()`: the lowercased string for a string or
falsy value; `none` models the `TypeError` raised when `toLowerCase`
is called on a truthy non-string. -/
def lowerOrTE (v : JVal) : Option String :=
  match v with
  | .str s => if s = "" then some "" else some (lowerStr s)
  | v => if jsTruthy v then none else some ""

/-- `Array.isArray(b.tags) ? b.tags.join(',') : ''`, lowercased. -/
def tagsJoinLower (v : JVal) : String :=
  match v with
  | .arr xs => lowerStr (joinComma xs)
  | _ => ""

/-- The filter predicate of `applyQuery` for a non-empty query `q`,
including JavaScript's left-to-right short-circuit evaluation of the
`||` chain (`none` = a `TypeError` was reached). -/
def matchesQ (q : String) (b : Book) : Option Bool := do
  let t ← lowerOrTE b.title
  if includesB t q then pure true else
  let a ← lowerOrTE b.author
  if includesB a q then pure true else
  let i ← lowerOrTE b.id
  if includesB i q then pure true else
  pure (includesB (tagsJoinLower b.tags) q)

/-- `list.filter(...)` in the option monad, evaluating the predicate in
list order. -/
def filterO (f : Book → Option Bool) : List Book → Option (List Book)
  | [] => some []
  | x :: xs =>
    match f x, filterO f xs with
    | some kx, some rest => some (if kx then x :: rest else rest)
    | _, _ => none

/-- The filtering step: skipped entirely when the query is empty. -/
def filterStep (q : String) (l : List Book) : Option (List Book) :=
  if q = "" then some l else filterO (matchesQ q) l

/-- `a[s]` for the whitelisted sort keys. -/
def getSortField (b : Book) : String → JVal
  | "id" => b.id
  | "title" => b.title
  | "author" => b.author
  | "year" => b.year
  | "rating" => b.rating
  | "createdAt" => .str b.createdAt
  | "updatedAt" => .str b.updatedAt
  | _ => .null

/-- ToPrimitive for the relational operators: arrays and objects become
their strings. -/
def toPrim : JVal → JVal
  | .arr xs => .str (jsToString (.arr xs))
  | .obj i t a y r tg v => .str (jsToString (.obj i t a y r tg v))
  | v => v

/-- JavaScript `a < b`: string comparison when both primitives are
strings, otherwise numeric (false when either side is `NaN`). -/
def jsLtB (a b : JVal) : Bool :=
  match toPrim a, toPrim b with
  | .str s, .str t => decide (s < t)
  | x, y =>
    match jsToNumber x, jsToNumber y with
    | some p, some q => decide (p < q)
    | _, _ => false

/-- The sort comparator: `av > bv ? dir : av < bv ? -dir : 0` with
missing (`null`) values replaced by `''`. -/
def cmpBook (s : String) (dir : Int) (a b : Book) : Int :=
  let av := if isNull (getSortField a s) then .str "" else getSortField a s
  let bv := if isNull (getSortField b s) then .str "" else getSortField b s
  if jsLtB bv av then dir else if jsLtB av bv then -dir else 0

/-- Insert `x` after every element that must come strictly before it —
the stable insertion matching `Array.prototype.sort` (stable since
ES2019). -/
def sortInsert (cmp : Book → Book → Int) (x : Book) : List Book → List Book
  | [] => [x]
  | y :: ys => if cmp y x < 0 then y :: sortInsert cmp x ys else x :: y :: ys

/-- A stable sort by the comparator. -/
def stableSort (cmp : Book → Book → Int) (l : List Book) : List Book :=
  l.foldr (sortInsert cmp) []

/-- `Array.prototype.slice` index conversion: `NaN` is 0, fractions
truncate toward zero, negatives count from the end, the result is
clamped to `[0, len]`. -/
def sliceIdx (v : NumV) (len : ℕ) : ℕ :=
  match v with
  | none => 0
  | some q =>
    let t : ℤ := if q < 0 then -(Int.floor (-q)) else Int.floor q
    if t < 0 then ((len : ℤ) + t).toNat else min t.toNat len

/-- `list.slice(s, e)`. -/
def jsSlice (l : List Book) (s e : NumV) : List Book :=
  ((l.take (sliceIdx e l.length)).drop (sliceIdx s l.length))

/-- The metadata object returned by `applyQuery`. -/
structure QMeta where
  total : ℕ
  limit : NumV
  offset : NumV
  sort : String
  dir : String
  q : String

/-- The result of `applyQuery`: the page plus metadata. -/
structure QueryOut where
  list : List Book
  meta : QMeta

/-- `applyQuery(list, url)` from the source: filter (skipped for an
empty query), stable sort, `total`, then the `slice(offset, offset +
limit)` page.  `none` models the `TypeError` the filter can raise on a
truthy non-string field. -/
def applyQuery (l : List Book) (p : QueryParams) : Option QueryOut :=
  match filterStep (qEffOf p) l with
  | none => none
  | some fl =>
    let sorted := stableSort (cmpBook (sortKeyOf p) (dirOf p)) fl
    let off := effOffset p.offset
    let lim := effLimit p.limit
    some { list := jsSlice sorted off (addN off lim),
           meta := { total := sorted.length, limit := lim, offset := off,
                     sort := sortKeyOf p,
                     dir := if dirOf p = 1 then "asc" else "desc",
                     q := qEffOf p } }

deriving instance DecidableEq for Book, VOut, ApiErr, Throw, BulkEntry, BulkResp, QueryParams, QMeta, QueryOut

/-! ## Test fixtures -/

/-- A well-formed stored record with id `b1` and version 1. -/
def bkA : Book :=
  { id := .str "b1", title := .str "Alpha", author := .str "Ann",
    year := .null, rating := .null, tags := .arr [],
    createdAt := "t0", updatedAt := "t0", version := .num 1 }

/-- A second well-formed stored record with id `b2`. -/
def bkB : Book :=
  { id := .str "b2", title := .str "Beta", author := .str "Bob",
    year := .null, rating := .null, tags := .arr [],
    createdAt := "t0", updatedAt := "t0", version := .num 1 }

/-- Patch `{id: "zz"}`. -/
def patchC1 : JVal := .obj (some (.str "zz")) none none none none none none

/-- Patch `{version: "1"}` (the version as a string). -/
def patchC2 : JVal := .obj none none none none none none (some (.str "1"))

/-- Patch `{version: 2}` (a stale expected version). -/
def patchC3 : JVal := .obj none none none none none none (some (.num 2))

/-- Patch `{id: "b2"}`. -/
def patchC4 : JVal := .obj (some (.str "b2")) none none none none none none

/-- Patch `{title: ""}`. -/
def patchC8 : JVal := .obj none (some (.str "")) none none none none none

/-! ## Claims about create/update/delete -/

/-- C1: the claim says a successful `updateRecord` never alters `id` (or
`createdAt`).  The code contradicts it: `validateBook` whitelists `id`
into the normalized patch and `updateBook` applies it with
`Object.assign`, so updating `b1` with `{id: "zz"}` succeeds and both
the returned and the stored record carry the new id `"zz"` (while
`createdAt` is indeed untouched). -/
theorem updateBook_alters_id :
    updateBook [bkA] "b1" patchC1 "t1" =
      (.ok { bkA with id := .str "zz", updatedAt := "t1", version := .num (1 + 1) },
       [{ bkA with id := .str "zz", updatedAt := "t1", version := .num (1 + 1) }]) := rfl

/-- C2: the claim says every successful update increments `version` by
exactly 1, keeping it a positive integer.  The code contradicts it: a
patch `{version: "1"}` against a record at version 1 passes the
concurrency check (`Number("1") === 1`), `Object.assign` writes the
string into the record, and `b.version += 1` then concatenates, leaving
the stored version the string `"11"`. -/
theorem updateBook_version_to_string :
    updateBook [bkA] "b1" patchC2 "t1" =
      (.ok { bkA with updatedAt := "t1", version := .str "11" },
       [{ bkA with updatedAt := "t1", version := .str "11" }]) := rfl

/-- C3: an update whose patch carries a `version` that is not `null`
and is not strictly equal (after `Number(...)`) to the record's current
version fails with `VERSION_CONFLICT`, reports the record's current
version as `expected`, and leaves the collection exactly as it was. -/
theorem updateBook_version_conflict (st : List Book) (idStr now : String)
    (patch : JVal) (b : Book) (pv : JVal)
    (hfind : findBook st (.str idStr) = some b)
    (hv : versionProp patch = some (some pv))
    (hnn : isNull pv = false)
    (hne : strictEq (numToJVal (jsToNumber pv)) b.version = false) :
    updateBook st idStr patch now = (.error (.api (.versionConflict b.version)), st) := by
  simp only [updateBook, hfind, hv, hnn, hne]
  simp

/-- Witness for C3: updating `b1` (version 1) with `{version: 2}`
conflicts, reports `expected = 1`, and leaves the store unchanged. -/
theorem updateBook_version_conflict_witness :
    updateBook [bkA] "b1" patchC3 "t1" =
      (.error (.api (.versionConflict (.num 1))), [bkA]) :=
  updateBook_version_conflict [bkA] "b1" "t1" patchC3 bkA (.num 2) rfl rfl rfl rfl

/-- The record produced by updating `bkA` with `{id: "b2"}`. -/
def bkDup : Book := { bkA with id := .str "b2", updatedAt := "t1", version := .num (1 + 1) }

/-- C4: the claim says `id` uniqueness is preserved by every mutation.
The code contradicts it: in a store holding `b1` and `b2`, updating
`b1` with `{id: "b2"}` succeeds and leaves two records with the same id
`"b2"`. -/
theorem updateBook_breaks_id_uniqueness :
    updateBook [bkA, bkB] "b1" patchC4 "t1" = (.ok bkDup, [bkDup, bkB]) ∧
      bkDup.id = bkB.id := ⟨rfl, rfl⟩

/-- C8: the claim says every stored record keeps a non-empty string
`title`.  The code contradicts it: in partial mode `validateBook` skips
the title check entirely, so updating `b1` with `{title: ""}` succeeds
and stores the empty title. -/
theorem updateBook_accepts_empty_title :
    updateBook [bkA] "b1" patchC8 "t1" =
      (.ok { bkA with title := .str "", updatedAt := "t1", version := .num (1 + 1) },
       [{ bkA with title := .str "", updatedAt := "t1", version := .num (1 + 1) }]) := rfl

/-- Is this value an array (`Array.isArray`)? -/
def isArrB : JVal → Bool
  | .arr _ => true
  | _ => false

/-- C10: when the request's `items` is present but not an array, the
bulk route answers 400 `VALIDATION` and the collection is untouched —
in every mode, because the array check runs before the `replace`
clearing. -/
theorem bulkRoute_nonArray_rejected (st : List Book) (v : JVal) (mode : Option JVal)
    (gen : ℕ → String) (now : String) (hv : isArrB v = false) :
    bulkRoute st (some v) mode gen now =
      (.badRequest "VALIDATION" "items must be an array", st) := by
  cases v <;> simp_all [bulkRoute, isArrB]

/-- Witness for C10: a string `items` in `replace` mode is rejected and
the store keeps its record. -/
theorem bulkRoute_nonArray_rejected_witness :
    bulkRoute [bkA] (some (.str "oops")) (some (.str "replace")) (fun _ => "g") "t1" =
      (.badRequest "VALIDATION" "items must be an array", [bkA]) :=
  bulkRoute_nonArray_rejected [bkA] (.str "oops") (some (.str "replace"))
    (fun _ => "g") "t1" rfl

/-! ## Claim C9: per-item bulk processing -/

/-- The bulk loop produces exactly one response entry per input item. -/
theorem bulkProcess_length (xs : List JVal) : ∀ (st : List Book) (gen : ℕ → String)
    (i0 : ℕ) (now : String), (bulkProcess st xs gen i0 now).1.length = xs.length := by
  induction xs with
  | nil => intro st gen i0 now; rfl
  | cons raw rest ih =>
    intro st gen i0 now
    simp only [bulkProcess, List.length_cons]
    rw [ih]

/-- A failed entry of the bulk loop carries the corresponding input
item. -/
theorem bulkProcess_failed_input (xs : List JVal) : ∀ (st : List Book)
    (gen : ℕ → String) (i0 : ℕ) (now : String) (i : ℕ) (e : Throw) (inp : JVal),
    ((bulkProcess st xs gen i0 now).1)[i]? = some (.failed e inp) →
    xs[i]? = some inp := by
  induction xs with
  | nil =>
    intro st gen i0 now i e inp h
    simp [bulkProcess] at h
  | cons raw rest ih =>
    intro st gen i0 now i e inp h
    simp only [bulkProcess] at h
    cases i with
    | zero =>
      cases hc : (createBook st (gen i0) now raw).1 with
      | ok b => rw [hc] at h; simp at h
      | error t =>
        rw [hc] at h
        simp at h
        simp [h.2]
    | succ n =>
      simp only [List.getElem?_cons_succ] at h ⊢
      exact ih _ gen (i0 + 1) now n e inp h

/-- C9: when `items` is an array, the bulk route answers 200 with
exactly one entry per item (a failure on one item never aborts the
rest), every error entry carries its own input item, and in `replace`
mode the whole batch is processed against a collection cleared before
the first item. -/
theorem bulkRoute_per_item (st : List Book) (xs : List JVal) (mode : Option JVal)
    (gen : ℕ → String) (now : String) (es : List BulkEntry) (stF : List Book)
    (h : bulkRoute st (some (.arr xs)) mode gen now =
      (.okAdded es (mode.getD (.str "append")), stF)) :
    es.length = xs.length ∧
    (∀ (i : ℕ) (e : Throw) (inp : JVal),
      es[i]? = some (BulkEntry.failed e inp) → xs[i]? = some inp) ∧
    (strictEq (mode.getD (.str "append")) (.str "replace") = true →
      (es, stF) = bulkProcess [] xs gen 0 now) := by
  simp only [bulkRoute, Option.getD_some] at h
  rw [Prod.ext_iff] at h
  obtain ⟨h1, h2⟩ := h
  injection h1 with he _
  subst he
  subst h2
  refine ⟨bulkProcess_length xs _ gen 0 now, ?_, ?_⟩
  · intro i e inp hi
    exact bulkProcess_failed_input xs _ gen 0 now i e inp hi
  · intro hr
    rw [hr]
    simp

/-- One valid bulk item `{title: "Dune"}`. -/
def goodItem : JVal := .obj none (some (.str "Dune")) none none none none none

/-- One invalid bulk item `{}` (no title). -/
def badItem : JVal := .obj none none none none none none none

/-- The record the bulk import creates from `goodItem`. -/
def bookW : Book :=
  { id := .str "g0", title := .str "Dune", author := .str "Unknown",
    year := .null, rating := .null, tags := .arr [],
    createdAt := "t1", updatedAt := "t1", version := .num 1 }

/-- The bulk response entries for `[goodItem, badItem]`. -/
def esW : List BulkEntry :=
  [.created bookW, .failed (.api (.validation ["title is required (string)"])) badItem]

/-- Witness for C9: a replace-mode import of one valid and one invalid
item over a non-empty store yields two entries in order and the state
produced from the cleared collection. -/
theorem bulkRoute_per_item_witness :
    esW.length = [goodItem, badItem].length ∧
    (esW, [bookW]) = bulkProcess [] [goodItem, badItem] (fun _ => "g0") 0 "t1" := by
  have T := bulkRoute_per_item [bkA] [goodItem, badItem] (some (.str "replace"))
    (fun _ => "g0") "t1" esW [bookW] rfl
  exact ⟨T.1, T.2.2 rfl⟩

/-! ## Claim C5: pipeline order and `meta.total` -/

/-- "Record `b` matches query `q`": the spec's matching notion — an
empty query matches everything, otherwise the filter predicate of the
code must return `true`. -/
def specMatches (q : String) (b : Book) : Bool :=
  (q == "") || (matchesQ q b == some true)

/-- Inserting preserves length. -/
theorem sortInsert_length (cmp : Book → Book → Int) (x : Book) :
    ∀ l, (sortInsert cmp x l).length = l.length + 1 := by
  intro l
  induction l with
  | nil => rfl
  | cons y ys ih => simp only [sortInsert]; split <;> simp [ih]

/-- `stableSort` on a cons. -/
theorem stableSort_cons (cmp : Book → Book → Int) (x : Book) (l : List Book) :
    stableSort cmp (x :: l) = sortInsert cmp x (stableSort cmp l) := rfl

/-- Sorting preserves length. -/
theorem stableSort_length (cmp : Book → Book → Int) :
    ∀ l, (stableSort cmp l).length = l.length := by
  intro l
  induction l with
  | nil => rfl
  | cons x xs ih => rw [stableSort_cons, sortInsert_length, ih, List.length_cons]

/-- Inserting is a permutation of consing. -/
theorem sortInsert_perm (cmp : Book → Book → Int) (x : Book) :
    ∀ l, (sortInsert cmp x l).Perm (x :: l) := by
  intro l
  induction l with
  | nil => exact List.Perm.refl _
  | cons y ys ih =>
    simp only [sortInsert]
    split
    · exact (ih.cons y).trans (List.Perm.swap x y ys)
    · exact List.Perm.refl _

/-- The sorted list is a permutation of the input. -/
theorem stableSort_perm (cmp : Book → Book → Int) :
    ∀ l, (stableSort cmp l).Perm l := by
  intro l
  induction l with
  | nil => exact List.Perm.refl _
  | cons x xs ih =>
    rw [stableSort_cons]
    exact (sortInsert_perm cmp x (stableSort cmp xs)).trans (ih.cons x)

/-- A successful monadic filter is the ordinary filter by "predicate
returned `some true`". -/
theorem filterO_eq_filter (f : Book → Option Bool) : ∀ (l fl : List Book),
    filterO f l = some fl → fl = l.filter (fun b => f b == some true) := by
  intro l
  induction l with
  | nil => intro fl h; simp only [filterO, Option.some.injEq] at h; simp [← h]
  | cons x xs ih =>
    intro fl h
    simp only [filterO] at h
    cases hfx : f x with
    | none => rw [hfx] at h; simp at h
    | some kx =>
      rw [hfx] at h
      cases hrest : filterO f xs with
      | none => rw [hrest] at h; simp at h
      | some rest =>
        rw [hrest] at h
        simp only [Option.some.injEq] at h
        subst h
        rw [List.filter_cons]
        have hk : (f x == some true) = kx := by rw [hfx]; cases kx <;> rfl
        rw [hk, ← ih rest hrest]

/-- Unfolding `applyQuery` once the filter step is known. -/
theorem applyQuery_eq_some (l : List Book) (p : QueryParams) (fl : List Book)
    (hfl : filterStep (qEffOf p) l = some fl) :
    applyQuery l p = some
      { list := jsSlice (stableSort (cmpBook (sortKeyOf p) (dirOf p)) fl)
          (effOffset p.offset) (addN (effOffset p.offset) (effLimit p.limit)),
        meta := { total := (stableSort (cmpBook (sortKeyOf p) (dirOf p)) fl).length,
                  limit := effLimit p.limit, offset := effOffset p.offset,
                  sort := sortKeyOf p,
                  dir := if dirOf p = 1 then "asc" else "desc",
                  q := qEffOf p } } := by
  simp only [applyQuery, hfl]

/-- C5: the pipeline is filter → sort → paginate, and `meta.total`
counts the records matching `q` after filtering and before pagination:
whenever `applyQuery` returns, its `total` equals the number of records
of the input matching `q`, equals the length of the filtered list, and
the returned page is the offset/limit slice of the sorted filtered
list. -/
theorem applyQuery_pipeline (l : List Book) (p : QueryParams) (out : QueryOut)
    (fl : List Book) (hfl : filterStep (qEffOf p) l = some fl)
    (h : applyQuery l p = some out) :
    out.meta.total = l.countP (specMatches (qEffOf p)) ∧
    out.meta.total = fl.length ∧
    out.list = jsSlice (stableSort (cmpBook (sortKeyOf p) (dirOf p)) fl)
      (effOffset p.offset) (addN (effOffset p.offset) (effLimit p.limit)) := by
  rw [applyQuery_eq_some l p fl hfl] at h
  injection h with h
  subst h
  refine ⟨?_, stableSort_length _ fl, rfl⟩
  show (stableSort _ fl).length = l.countP (specMatches (qEffOf p))
  rw [stableSort_length]
  by_cases hq : qEffOf p = ""
  · rw [filterStep, if_pos hq] at hfl
    injection hfl with hfl
    subst hfl
    symm
    rw [List.countP_eq_length]
    intro a _
    simp [specMatches, hq]
  · rw [filterStep, if_neg hq] at hfl
    rw [filterO_eq_filter _ l fl hfl, List.countP_eq_length_filter]
    congr 1
    apply List.filter_congr
    intro b _
    simp [specMatches, hq]

/-- The query parameter set with every parameter absent. -/
def pAll : QueryParams := { q := none, sort := none, dir := none, limit := none, offset := none }

/-- The output of `applyQuery [bkA] pAll`. -/
def outAll : QueryOut :=
  { list := [bkA],
    meta := { total := 1, limit := some 20, offset := some 0,
              sort := "title", dir := "asc", q := "" } }

/-- Witness for C5 at a one-record collection with default
parameters. -/
theorem applyQuery_pipeline_witness :
    outAll.meta.total = [bkA].countP (specMatches (qEffOf pAll)) ∧
    outAll.meta.total = [bkA].length ∧
    outAll.list = jsSlice (stableSort (cmpBook (sortKeyOf pAll) (dirOf pAll)) [bkA])
      (effOffset pAll.offset) (addN (effOffset pAll.offset) (effLimit pAll.limit)) :=
  applyQuery_pipeline [bkA] pAll outAll [bkA] rfl (by with_unfolding_all decide)

/-! ## Claim C6: effective limit and offset -/

/-- The limit clamp of the spec, on integers. -/
def clampL (z : ℤ) : ℤ := min (max z 1) 100

/-- The offset clamp of the spec, on integers. -/
def clampO (z : ℤ) : ℤ := max z 0

/-- Whenever `applyQuery` returns, its metadata echoes the effective
limit and offset. -/
theorem applyQuery_meta (l : List Book) (p : QueryParams) (out : QueryOut)
    (h : applyQuery l p = some out) :
    out.meta.limit = effLimit p.limit ∧ out.meta.offset = effOffset p.offset := by
  unfold applyQuery at h
  cases hfl : filterStep (qEffOf p) l with
  | none => rw [hfl] at h; exact absurd h (by simp)
  | some fl =>
    rw [hfl] at h
    injection h with h
    subst h
    exact ⟨rfl, rfl⟩

/-- Query parameters with non-numeric limit and offset. -/
def pC6 : QueryParams :=
  { q := none, sort := none, dir := none, limit := some "abc", offset := some "abc" }

/-- The output of `applyQuery [] pC6`: the `NaN` effective values are
echoed in the metadata. -/
def outC6 : QueryOut :=
  { list := [],
    meta := { total := 0, limit := none, offset := none,
              sort := "title", dir := "asc", q := "" } }

/-- Counterexample for C6 as stated: a non-numeric `limit`/`offset`
parameter does not yield an integer in range — `Number('abc')` is `NaN`,
`Math.max`/`Math.min` propagate it, and the `NaN` (here `none`) is used
for the slice and echoed in `meta`, so the effective limit is not an
integer in `[1, 100]`. -/
theorem applyQuery_nan_limit :
    effLimit (some "abc") = none ∧ effOffset (some "abc") = none ∧
    applyQuery [] pC6 = some outC6 := ⟨rfl, rfl, rfl⟩

/-- C6 (amended): when the supplied `limit`/`offset` parameters are
absent, empty, or parse to integers `zL`/`zO`, the effective limit is
the integer `min (max zL 1) 100 ∈ [1, 100]` (20 when absent), the
effective offset is the integer `max zO 0 ≥ 0` (0 when absent), and the
returned metadata echoes these effective values. -/
theorem effParams_integer (p : QueryParams) (zL zO : ℤ)
    (hl : rawNum p.limit 20 = some ((zL : ℤ) : ℚ))
    (ho : rawNum p.offset 0 = some ((zO : ℤ) : ℚ)) :
    effLimit p.limit = some ((clampL zL : ℤ) : ℚ) ∧
    1 ≤ clampL zL ∧ clampL zL ≤ 100 ∧
    effOffset p.offset = some ((clampO zO : ℤ) : ℚ) ∧
    0 ≤ clampO zO ∧
    (p.limit = none → clampL zL = 20) ∧
    (p.offset = none → clampO zO = 0) ∧
    ∀ (l : List Book) (out : QueryOut), applyQuery l p = some out →
      out.meta.limit = some ((clampL zL : ℤ) : ℚ) ∧
      out.meta.offset = some ((clampO zO : ℤ) : ℚ) := by
  have hmax : jsMaxN (rawNum p.limit 20) 1 = some ((max zL 1 : ℤ) : ℚ) := by
    rw [hl]
    simp only [jsMaxN]
    by_cases h1 : zL < 1
    · rw [if_pos (by exact_mod_cast h1), show max zL 1 = 1 from by omega]
      norm_num
    · rw [if_neg (by exact_mod_cast h1), show max zL 1 = zL from by omega]
  have hlim : effLimit p.limit = some ((clampL zL : ℤ) : ℚ) := by
    rw [effLimit, hmax]
    simp only [jsMinN]
    by_cases h2 : (100 : ℤ) < max zL 1
    · rw [if_pos (by exact_mod_cast h2), show clampL zL = 100 from by unfold clampL; omega]
      norm_num
    · rw [if_neg (by exact_mod_cast h2), show clampL zL = max zL 1 from by unfold clampL; omega]
  have hoff : effOffset p.offset = some ((clampO zO : ℤ) : ℚ) := by
    rw [effOffset, ho]
    simp only [jsMaxN]
    by_cases h3 : zO < 0
    · rw [if_pos (by exact_mod_cast h3), show clampO zO = 0 from by unfold clampO; omega]
      norm_num
    · rw [if_neg (by exact_mod_cast h3), show clampO zO = zO from by unfold clampO; omega]
  refine ⟨hlim, by unfold clampL; omega, by unfold clampL; omega, hoff,
    by unfold clampO; omega, ?_, ?_, ?_⟩
  · intro hn0
    rw [hn0] at hl
    simp only [rawNum, Option.some.injEq] at hl
    have : zL = 20 := by exact_mod_cast hl.symm
    unfold clampL; omega
  · intro hn0
    rw [hn0] at ho
    simp only [rawNum, Option.some.injEq] at ho
    have : zO = 0 := by exact_mod_cast ho.symm
    unfold clampO; omega
  · intro l out h
    have hm := applyQuery_meta l p out h
    rw [hm.1, hm.2, hlim, hoff]
    exact ⟨rfl, rfl⟩

/-- Query parameters with an oversized limit and a negative offset. -/
def pC6w : QueryParams :=
  { q := none, sort := none, dir := none, limit := some "250", offset := some "-3" }

/-- Witness for C6 (amended): `limit=250` clamps to 100 and `offset=-3`
clamps to 0, both integers in range. -/
theorem effParams_integer_witness :
    effLimit (some "250") = some ((clampL 250 : ℤ) : ℚ) ∧
    effOffset (some "-3") = some ((clampO (-3) : ℤ) : ℚ) ∧
    1 ≤ clampL 250 ∧ clampL 250 ≤ 100 ∧ 0 ≤ clampO (-3) := by
  have T := effParams_integer pC6w 250 (-3) (by with_unfolding_all decide)
    (by with_unfolding_all decide)
  exact ⟨T.1, T.2.2.2.1, T.2.1, T.2.2.1, T.2.2.2.2.1⟩

/-! ## Claim C7: pagination stability -/

/-- `sliceIdx` on a natural number index. -/
theorem sliceIdx_nat (a n : ℕ) : sliceIdx (some ((a : ℕ) : ℚ)) n = min a n := by
  have h1 : (if ((a : ℕ) : ℚ) < 0 then -(Int.floor (-((a : ℕ) : ℚ)))
      else Int.floor ((a : ℕ) : ℚ)) = ((a : ℕ) : ℤ) := by
    rw [if_neg (not_lt.mpr (Nat.cast_nonneg a)), Int.floor_natCast]
  simp only [sliceIdx, h1]
  rw [if_neg (not_lt.mpr (Int.natCast_nonneg a)), Int.toNat_natCast]

/-- `slice(a, a + L)` with natural bounds is drop-then-take. -/
theorem jsSlice_nat (l : List Book) (a L : ℕ) :
    jsSlice l (some ((a : ℕ) : ℚ)) (some (((a + L : ℕ)) : ℚ)) = (l.drop a).take L := by
  unfold jsSlice
  rw [sliceIdx_nat, sliceIdx_nat]
  have h1 : l.take (min (a + L) l.length) = l.take (a + L) := by
    rcases Nat.le_total (a + L) l.length with h | h
    · rw [Nat.min_eq_left h]
    · rw [Nat.min_eq_right h, List.take_length, List.take_of_length_le h]
  rw [h1]
  rcases Nat.le_total a l.length with h | h
  · rw [Nat.min_eq_left h]
    exact (List.take_drop a L l).symm
  · rw [Nat.min_eq_right h]
    rw [List.drop_eq_nil_of_le (by rw [List.length_take]; omega)]
    rw [List.drop_eq_nil_of_le h, List.take_nil]

/-- Taking `m + n` is taking `m` and then `n` more. -/
theorem take_add_split (l : List Book) (m n : ℕ) :
    l.take (m + n) = l.take m ++ (l.drop m).take n := by
  conv_lhs => rw [← List.take_append_drop m (l.take (m + n))]
  rw [List.take_take, Nat.min_eq_left (Nat.le_add_right m n), ← List.take_drop]

/-- Concatenating the `K` pages of size `L` is taking the first
`K * L` elements. -/
theorem pages_take (l : List Book) (L : ℕ) : ∀ K : ℕ,
    ((List.range K).map (fun i => (l.drop (i * L)).take L)).flatten = l.take (K * L) := by
  intro K
  induction K with
  | zero => simp
  | succ k ih =>
    rw [List.range_succ, List.map_append, List.flatten_append, ih]
    simp only [List.map_cons, List.map_nil, List.flatten_cons, List.flatten_nil,
      List.append_nil]
    rw [show (k + 1) * L = k * L + L from by ring, take_add_split]

/-- The page of books a query response carries (none on a
`TypeError`). -/
def pageOf : Option QueryOut → List Book
  | some o => o.list
  | none => []

/-- C7: with a fixed filter/sort/limit parameter set whose effective
limit is a positive integer `L`, querying the pages at offsets `0, L,
2·L, …` (no mutation in between) and concatenating them reproduces
exactly the sorted filtered sequence, which is a permutation of the
filtered records (each appearing exactly once). -/
theorem applyQuery_pagination (l : List Book) (p : QueryParams) (L K : ℕ)
    (offs : ℕ → Option String)
    (hL : effLimit p.limit = some ((L : ℕ) : ℚ)) (hL1 : 1 ≤ L)
    (hoffs : ∀ i : ℕ, i < K → effOffset (offs i) = some (((i * L : ℕ)) : ℚ))
    (fl : List Book) (hfl : filterStep (qEffOf p) l = some fl)
    (hcov : fl.length ≤ K * L) :
    ((List.range K).map (fun i => pageOf (applyQuery l { p with offset := offs i }))).flatten
      = stableSort (cmpBook (sortKeyOf p) (dirOf p)) fl ∧
    (stableSort (cmpBook (sortKeyOf p) (dirOf p)) fl).Perm fl := by
  refine ⟨?_, stableSort_perm _ fl⟩
  have hpage : ∀ i : ℕ, i < K → pageOf (applyQuery l { p with offset := offs i })
      = ((stableSort (cmpBook (sortKeyOf p) (dirOf p)) fl).drop (i * L)).take L := by
    intro i hi
    have hfl2 : filterStep (qEffOf { p with offset := offs i }) l = some fl := hfl
    rw [applyQuery_eq_some l { p with offset := offs i } fl hfl2]
    show jsSlice _ _ _ = _
    rw [show ({ p with offset := offs i } : QueryParams).offset = offs i from rfl,
      show ({ p with offset := offs i } : QueryParams).limit = p.limit from rfl,
      hoffs i hi, hL]
    have hadd : addN (some (((i * L : ℕ)) : ℚ)) (some ((L : ℕ) : ℚ))
        = some (((i * L + L : ℕ)) : ℚ) := by
      simp only [addN, Option.some.injEq]
      push_cast
      ring
    rw [hadd, jsSlice_nat]
    rfl
  have hmap : (List.range K).map (fun i => pageOf (applyQuery l { p with offset := offs i }))
      = (List.range K).map
        (fun i => ((stableSort (cmpBook (sortKeyOf p) (dirOf p)) fl).drop (i * L)).take L) := by
    apply List.map_congr_left
    intro i hi
    exact hpage i (List.mem_range.mp hi)
  rw [hmap, pages_take]
  apply List.take_of_length_le
  rw [stableSort_length]
  exact hcov

/-- A third well-formed record. -/
def bkC : Book :=
  { id := .str "b3", title := .str "Gamma", author := .str "Cy",
    year := .null, rating := .null, tags := .arr [],
    createdAt := "t0", updatedAt := "t0", version := .num 1 }

/-- A parameter set with limit 2 and no query. -/
def p7w : QueryParams :=
  { q := none, sort := none, dir := none, limit := some "2", offset := none }

/-- Offsets `0, 2` as raw parameter strings. -/
def offs7 : ℕ → Option String := fun i => if i = 0 then some "0" else some "2"

/-- Witness for C7: two pages of size 2 over three records reproduce
the sorted collection exactly. -/
theorem applyQuery_pagination_witness :
    ((List.range 2).map
      (fun i => pageOf (applyQuery [bkA, bkB, bkC] { p7w with offset := offs7 i }))).flatten
      = stableSort (cmpBook (sortKeyOf p7w) (dirOf p7w)) [bkA, bkB, bkC] ∧
    (stableSort (cmpBook (sortKeyOf p7w) (dirOf p7w)) [bkA, bkB, bkC]).Perm [bkA, bkB, bkC] :=
  applyQuery_pagination [bkA, bkB, bkC] p7w 2 2 offs7
    (by with_unfolding_all decide) (by decide)
    (by with_unfolding_all decide) [bkA, bkB, bkC] rfl (by decide)
